import Mathlib

/-
Verification of the Python backend of quicktype (src/quicktype-core/language/Python.ts).

The IR type nodes, the renderer state (import registry, declared-type set,
used-combinator set) and the rendering / deserializer-synthesis functions are
shallowly embedded below.  Recursive renderer functions take an explicit fuel
argument so that they are structurally recursive and kernel-executable; fuel is
an embedding device only, all claims are stated at sufficient fuel.
-/

namespace PythonBackend

/-- The transformed-string kinds of the IR (`TransformedStringTypeKind`). -/
inductive TStringKind where
  | date
  | time
  | dateTime
  | integerString
  | uuid
  | uri
  deriving DecidableEq, Repr

/-- The IR kind string of a transformed-string kind. -/
def tstringKindName : TStringKind → String
  | .date => "date"
  | .time => "time"
  | .dateTime => "date-time"
  | .integerString => "integer-string"
  | .uuid => "uuid"
  | .uri => "uri"

/-- IR type nodes.  Classes and enums are references into the type graph:
they carry the identity (`id`) used by the declared-type set and the
already-resolved canonical name (`nameForNamedType` is external). -/
inductive Typ where
  | anyT
  | nullT
  | boolT
  | intT
  | doubleT
  | stringT
  | arrayT (items : Typ)
  | mapT (values : Typ)
  | classT (id : Nat) (name : String)
  | enumT (id : Nat) (name : String)
  | unionT (members : List Typ)
  | transformedT (kind : TStringKind)

/-- The IR kind string of a type node (`Type.kind`). -/
def kindString : Typ → String
  | .anyT => "any"
  | .nullT => "null"
  | .boolT => "bool"
  | .intT => "integer"
  | .doubleT => "double"
  | .stringT => "string"
  | .arrayT _ => "array"
  | .mapT _ => "map"
  | .classT _ _ => "class"
  | .enumT _ _ => "enum"
  | .unionT _ => "union"
  | .transformedT k => tstringKindName k

/-- The canonical name of a named type, empty for unnamed ones. -/
def typeNameOf : Typ → String
  | .classT _ name => name
  | .enumT _ name => name
  | _ => ""

/-- Modelled from the spec: `UnionType.sortedMembers` (in Type.ts, not under
src/) is the stable, deterministic sort of the member set, "fixed by member
kind then name, independent of discovery order". -/
def sortKeyLe (a b : Typ) : Bool :=
  match compare (kindString a) (kindString b) with
  | .lt => true
  | .eq => compare (typeNameOf a) (typeNameOf b) != Ordering.gt
  | .gt => false

/-- One step of stable insertion sort on the union-member sort key. -/
def insertMember (a : Typ) : List Typ → List Typ
  | [] => [a]
  | b :: l => if sortKeyLe a b then a :: b :: l else b :: insertMember a l

/-- Stable sort of union members by (kind, name); the embedding of
`UnionType.sortedMembers`. -/
def sortMembers : List Typ → List Typ
  | [] => []
  | a :: l => insertMember a (sortMembers l)

/-- Whether an IR node is the null primitive (the external helpers test
`kind === "null"`). -/
def isNullT : Typ → Bool
  | .nullT => true
  | _ => false

/-- Modelled from the spec: `nullableFromUnion` (in TypeUtils.ts, not under
src/) returns the single non-null member of a union that contains null and
exactly one other member, and null otherwise ("a union of exactly \x7bnull, T\x7d
is always treated as optional T"). -/
def nullableFromUnion (ms : List Typ) : Option Typ :=
  if ms.any isNullT then
    match ms.filter (fun m => !isNullT m) with
    | [t] => some t
    | _ => none
  else none

/-- The combinator kinds (`DeserializerFunction` in the source, a closed
string union there). -/
inductive DeserializerFunction where
  | none
  | bool
  | int
  | float
  | str
  | list
  | dict
  | union
  | dateTime
  deriving DecidableEq, Repr

/-- The string value of a `DeserializerFunction` member. -/
def dfName : DeserializerFunction → String
  | .none => "none"
  | .bool => "bool"
  | .int => "int"
  | .float => "float"
  | .str => "str"
  | .list => "list"
  | .dict => "dict"
  | .union => "union"
  | .dateTime => "date-time"

/-- The renderer's mutable registries: the import registry (insertion-ordered
module to insertion-ordered symbol set, as a JS Map of Sets), the
declared-type set (`declaredTypes`, identity-keyed), and the used-combinator
set (`deserializerFunctions`, insertion-ordered). -/
structure RState where
  imports : List (String × List String)
  declared : List Nat
  used : List DeserializerFunction
  deriving DecidableEq, Repr

/-- The renderer's initial state: all three registries empty. -/
def initRState : RState := ⟨[], [], []⟩

/-- Insertion-ordered set insert for strings (JS `Set.add`). -/
def addOnceStr (a : String) (l : List String) : List String :=
  if l.contains a then l else l ++ [a]

/-- Insertion-ordered set insert for type identities (JS `Set.add`). -/
def addOnceNat (a : Nat) (l : List Nat) : List Nat :=
  if l.contains a then l else l ++ [a]

/-- Insertion-ordered set insert for combinator kinds (JS `Set.add`). -/
def addOnceDF (a : DeserializerFunction) (l : List DeserializerFunction) :
    List DeserializerFunction :=
  if l.contains a then l else l ++ [a]

/-- `mapUpdateInto` on the import registry: update the module's symbol set in
place if the module is present, append a new entry otherwise. -/
def insertImport (module name : String) :
    List (String × List String) → List (String × List String)
  | [] => [(module, [name])]
  | (m, ns) :: rest =>
    if m == module then (m, addOnceStr name ns) :: rest
    else (m, ns) :: insertImport module name rest

/-- `PythonRenderer.withImport`: register one (module, symbol) entry; the
returned Sourcelike is the symbol name itself. -/
def withImport (module name : String) (st : RState) : RState :=
  { st with imports := insertImport module name st.imports }

/-- Whether the import registry holds the given symbol for the given module. -/
def importHas (st : RState) (module name : String) : Bool :=
  match st.imports.lookup module with
  | some names => names.contains name
  | Option.none => false

/-- `PythonRenderer.namedType`: a declared type is referenced by its bare
name, an undeclared one by its name wrapped in quote characters. -/
def namedType (id : Nat) (name : String) (st : RState) : String :=
  if st.declared.contains id then name else "\x27" ++ name ++ "\x27"

/-- State-threading traversal over a list, propagating the first error; the
shape of every per-property / per-member loop of the renderer. -/
def mapAccumExcept {α β : Type} (f : α → RState → Except String (β × RState)) :
    List α → RState → Except String (List β × RState)
  | [], st => .ok ([], st)
  | a :: as, st =>
    match f a st with
    | .error e => .error e
    | .ok (b, st1) =>
      match mapAccumExcept f as st1 with
      | .error e => .error e
      | .ok (bs, st2) => .ok (b :: bs, st2)

/-- `PythonRenderer.pythonType`: the static type annotation of an IR node.
`followTargetType` (Transformers.ts, external) is the identity on this IR
since transformed targets are already resolved.  The `panic` on unsupported
transformed-string kinds is embedded as `Except.error`. -/
def pythonType : Nat → Typ → RState → Except String (String × RState)
  | 0, _, _ => .error "recursion limit exceeded"
  | fuel + 1, t, st =>
    match t with
    | .anyT => .ok ("Any", withImport "typing" "Any" st)
    | .nullT => .ok ("None", st)
    | .boolT => .ok ("bool", st)
    | .intT => .ok ("int", st)
    | .doubleT => .ok ("float", st)
    | .stringT => .ok ("str", st)
    | .arrayT items =>
      let st1 := withImport "typing" "List" st
      match pythonType fuel items st1 with
      | .error e => .error e
      | .ok (s, st2) => .ok ("List[" ++ s ++ "]", st2)
    | .classT id name => .ok (namedType id name st, st)
    | .mapT values =>
      let st1 := withImport "typing" "Dict" st
      match pythonType fuel values st1 with
      | .error e => .error e
      | .ok (s, st2) => .ok ("Dict[str, " ++ s ++ "]", st2)
    | .enumT id name => .ok (namedType id name st, st)
    | .unionT ms =>
      match nullableFromUnion ms with
      | some t' =>
        let st1 := withImport "typing" "Optional" st
        match pythonType fuel t' st1 with
        | .error e => .error e
        | .ok (s, st2) => .ok ("Optional[" ++ s ++ "]", st2)
      | Option.none =>
        match mapAccumExcept (fun m st' => pythonType fuel m st') (sortMembers ms) st with
        | .error e => .error e
        | .ok (ss, st1) =>
          .ok ("Union[" ++ String.intercalate ", " ss ++ "]", withImport "typing" "Union" st1)
    | .transformedT k =>
      if k == TStringKind.dateTime then .ok ("datetime", withImport "datetime" "datetime" st)
      else .error ("Transformed type " ++ tstringKindName k ++ " not supported")

/-- Modelled from the spec: `MultiWord` (Source.ts, not under src/) is a
rendered expression together with the flag telling `parenIfNeeded` whether it
must be parenthesized when applied. -/
structure MWord where
  source : String
  needsParens : Bool
  deriving DecidableEq, Repr

/-- Modelled from the spec: `singleWord` builds an atomic expression, never
parenthesized. -/
def singleWord (s : String) : MWord := ⟨s, false⟩

/-- Modelled from the spec: `multiWord sep ws` joins the words with the
separator; the result is parenthesized when applied. -/
def multiWord (sep : String) (ws : List String) : MWord :=
  ⟨String.intercalate sep ws, true⟩

/-- Modelled from the spec: `parenIfNeeded` wraps a multi-word expression in
parentheses and leaves a single word bare. -/
def parenIfNeeded (m : MWord) : String :=
  if m.needsParens then "(" ++ m.source ++ ")" else m.source

/-- `JSONPythonRenderer.from`: record the combinator kind in the
used-combinator set and return the reference `from_<kind>`. -/
def fromDF (df : DeserializerFunction) (st : RState) : String × RState :=
  ("from_" ++ dfName df, { st with used := addOnceDF df st.used })

/-- `JSONPythonRenderer.deserializerFn`: the validate-and-convert expression
of an IR node.  Union members are taken from the union's stored member list
(`unionType.members`), and there is no nullable special case.  The `panic` on
unsupported transformed-string kinds is embedded as `Except.error`. -/
def deserializerFn : Nat → Typ → RState → Except String (MWord × RState)
  | 0, _, _ => .error "recursion limit exceeded"
  | fuel + 1, t, st =>
    match t with
    | .anyT => .ok (multiWord " " ["lambda", "x:", "x"], st)
    | .nullT =>
      let (f, st1) := fromDF .none st
      .ok (singleWord f, st1)
    | .boolT =>
      let (f, st1) := fromDF .bool st
      .ok (singleWord f, st1)
    | .intT =>
      let (f, st1) := fromDF .int st
      .ok (singleWord f, st1)
    | .doubleT =>
      let (f, st1) := fromDF .float st
      .ok (singleWord f, st1)
    | .stringT =>
      let (f, st1) := fromDF .str st
      .ok (singleWord f, st1)
    | .arrayT items =>
      let (f, st1) := fromDF .list st
      match deserializerFn fuel items st1 with
      | .error e => .error e
      | .ok (d, st2) =>
        .ok (multiWord "" ["lambda x: ", f, "(", parenIfNeeded d, ", x)"], st2)
    | .classT _ name => .ok (singleWord name, st)
    | .mapT values =>
      let (f, st1) := fromDF .dict st
      match deserializerFn fuel values st1 with
      | .error e => .error e
      | .ok (d, st2) =>
        .ok (multiWord "" ["lambda x: ", f, "(", parenIfNeeded d, ", x)"], st2)
    | .enumT _ name => .ok (singleWord name, st)
    | .unionT ms =>
      match mapAccumExcept
          (fun m st' =>
            match deserializerFn fuel m st' with
            | .error e => .error e
            | .ok (d, st'') => .ok (d.source, st''))
          ms st with
      | .error e => .error e
      | .ok (ds, st1) =>
        let (f, st2) := fromDF .union st1
        .ok (multiWord "" ["lambda x: ", f, "([", String.intercalate ", " ds, "], x)"], st2)
    | .transformedT k =>
      if k == TStringKind.dateTime then
        let (f, st1) := fromDF .dateTime st
        .ok (singleWord f, st1)
      else .error ("Transformed type " ++ tstringKindName k ++ " not supported")

/-- `JSONPythonRenderer.deserializer`: apply the synthesized deserializer
expression to a value. -/
def deserializer (fuel : Nat) (value : String) (t : Typ) (st : RState) :
    Except String (String × RState) :=
  match deserializerFn fuel t st with
  | .error e => .error e
  | .ok (d, st1) => .ok (parenIfNeeded d ++ "(" ++ value ++ ")", st1)

/-- The `deserializerFunctionCodes` table: the exact Python support-code body
of each combinator kind. -/
def deserializerFunctionCodes : DeserializerFunction → String
  | .none => "def from_none(x):\n    assert x is None\n    return x"
  | .bool => "def from_bool(x):\n    assert isinstance(x, bool)\n    return x"
  | .int => "def from_int(x):\n    assert isinstance(x, int)\n    return x"
  | .float => "def from_float(x):\n    assert isinstance(x, (float, int))\n    return float(x)"
  | .str => "def from_str(x):\n    assert isinstance(x, str)\n    return x"
  | .list => "def from_list(f, x):\n    assert isinstance(x, list)\n    return [f(y) for y in x]"
  | .dict => "def from_dict(f, x):\n    assert isinstance(x, dict)\n    return \x7b k: f(v) for (k, v) in x.items() \x7d"
  | .union => "def from_union(fs, x):\n    for f in fs:\n        try:\n            return f(x)\n        except AssertionError:\n            pass\n    assert False"
  | .dateTime => "def from_datetime(x):\n    # This is not correct.  Python <3.7 doesn\x27t support ISO date-time\n    # parsing in the standard library.  This is a kludge until we have\n    # that.\n    return datetime.strptime(x, \"%Y-%m-%dT%H:%M:%S.%fZ\")"

/-- `JSONPythonRenderer.emitSupportCode`: one body per used combinator kind,
in the used-set's (insertion) order, each followed by a blank line. -/
def emitSupportCodeLines (st : RState) : List String :=
  (st.used.map (fun df => [deserializerFunctionCodes df, ""])).flatten

/-- A class property as the renderer sees it: the legalized property name,
the original JSON key, and the property's type. -/
structure ClassProp where
  name : String
  jsonName : String
  type : Typ

/-- An enum case as the renderer sees it: the legalized case name and the
original JSON literal. -/
structure EnumCase where
  name : String
  jsonName : String

/-- Modelled from the spec: `stringEscape` (support/Strings.ts, not under
src/) escapes a literal "for the target's string syntax"; backslashes and
double quotes are prefixed with a backslash. -/
def stringEscape (s : String) : String :=
  String.mk (s.data.foldr
    (fun c acc => if c == '"' || c == '\\' then '\\' :: c :: acc else c :: acc) [])

/-- Indent a block one level, leaving blank lines blank. -/
def indentLines (lines : List String) : List String :=
  lines.map (fun l => if l == "" then "" else "    " ++ l)

/-- `JSONPythonRenderer.emitClassMembers`: the `__init__` block, asserting
dict shape and assigning each property through its deserializer. -/
def emitClassMembersLines (fuel : Nat) (props : List ClassProp) (st : RState) :
    Except String (List String × RState) :=
  match mapAccumExcept
      (fun (p : ClassProp) st' =>
        match deserializer fuel ("obj[\"" ++ stringEscape p.jsonName ++ "\"]") p.type st' with
        | .error e => .error e
        | .ok (e, st'') => .ok ("self." ++ p.name ++ " = " ++ e, st''))
      props st with
  | .error e => .error e
  | .ok (asgLines, st1) =>
    .ok ("def __init__(self, obj):" ::
      indentLines ("assert isinstance(obj, dict)" :: asgLines), st1)

/-- `PythonRenderer.emitClass` through `declareType` (with the
`JSONPythonRenderer` member hook): emit the header, for an empty class the
`pass` body, otherwise one annotated member per property followed by the
generated `__init__`; the type's identity is added to the declared set only
after the body is complete. -/
def emitClass (fuel : Nat) (id : Nat) (cname : String) (props : List ClassProp)
    (st : RState) : Except String (List String × RState) :=
  let header := "class " ++ cname ++ ":"
  match
    (if props.isEmpty then .ok (["pass"], st)
     else
       match mapAccumExcept
           (fun (p : ClassProp) st' =>
             match pythonType fuel p.type st' with
             | .error e => .error e
             | .ok (s, st'') => .ok (p.name ++ ": " ++ s, st''))
           props st with
       | .error e => .error e
       | .ok (annLines, st1) =>
         match emitClassMembersLines fuel props st1 with
         | .error e => .error e
         | .ok (memLines, st2) => .ok (annLines ++ [""] ++ memLines, st2) :
       Except String (List String × RState)) with
  | .error e => .error e
  | .ok (body, st3) =>
    .ok (header :: indentLines body, { st3 with declared := addOnceNat id st3.declared })

/-- `PythonRenderer.emitEnum` through `declareType`: the `Enum`-derived
header (registering the `enum` import) and one literal-valued case per
member; the identity is added to the declared set after the body. -/
def emitEnum (id : Nat) (cname : String) (cases : List EnumCase) (st : RState) :
    Except String (List String × RState) :=
  let st1 := withImport "enum" "Enum" st
  let header := "class " ++ cname ++ "(Enum):"
  let body := cases.map (fun c => c.name ++ " = \"" ++ stringEscape c.jsonName ++ "\"")
  .ok (header :: indentLines body, { st1 with declared := addOnceNat id st1.declared })

/-- The payload of a declaration handed to the emitter: a class with its
properties, an enum with its cases, or any other type node. -/
inductive DeclTy where
  | classD (id : Nat) (name : String) (props : List ClassProp)
  | enumD (id : Nat) (name : String) (cases : List EnumCase)
  | otherD (t : Typ)

/-- A declaration from the external declaration-order framework
(`Declaration`): a forward declaration or a definition. -/
inductive Decl where
  | forward (d : DeclTy)
  | define (d : DeclTy)

/-- `PythonRenderer.emitDeclaration`: forward declarations emit nothing;
defines dispatch on the type: classes and enums are emitted, a union is
silently skipped (`return` with no output), and any other kind is a `panic`
naming the kind, embedded as `Except.error`. -/
def emitDeclaration (fuel : Nat) (d : Decl) (st : RState) :
    Except String (List String × RState) :=
  match d with
  | .forward _ => .ok ([], st)
  | .define (.classD id name props) => emitClass fuel id name props st
  | .define (.enumD id name cases) => emitEnum id name cases st
  | .define (.otherD t) =>
    match t with
    | .unionT _ => .ok ([], st)
    | _ => .error ("Cannot declare type " ++ kindString t)

/-- `forEachDeclaration "interposing"`: each declaration in the externally
supplied order, with a blank line between nonempty blocks. -/
def emitDeclarations (fuel : Nat) : List Decl → RState → Except String (List String × RState)
  | [], st => .ok ([], st)
  | d :: ds, st =>
    match emitDeclaration fuel d st with
    | .error e => .error e
    | .ok (l1, st1) =>
      match emitDeclarations fuel ds st1 with
      | .error e => .error e
      | .ok (l2, st2) =>
        .ok (l1 ++ (if l1.isEmpty || l2.isEmpty then [] else [""]) ++ l2, st2)

/-- `PythonRenderer.emitImports`: one line per module, symbols comma-joined,
in registry insertion order. -/
def importLines (st : RState) : List String :=
  st.imports.map (fun p => "from " ++ p.1 ++ " import " ++ String.intercalate ", " p.2)

/-- `PythonRenderer.emitDefaultLeadingComments`. -/
def defaultLeadingComments : List String :=
  ["# Only Python >=3.6 right now, and no (de)serializers yet.",
   "# More features coming soon!"]

/-- `PythonRenderer.emitSourceStructure`: declarations are gathered first
(which populates the import and used-combinator registries), support code is
gathered second from the populated state, and the artifact is assembled as
leading comments, imports, support code, then declarations. -/
def emitSourceStructure (fuel : Nat) (decls : List Decl) (st : RState) :
    Except String (List String) :=
  match emitDeclarations fuel decls st with
  | .error e => .error e
  | .ok (declLines, st1) =>
    let supportLines := emitSupportCodeLines st1
    .ok (defaultLeadingComments ++ [""] ++ importLines st1 ++ [""] ++
      supportLines ++ [""] ++ declLines)

/-- `PythonTargetLanguage.stringTypeMapping`: date, time and date-time are
all mapped to the plain string primitive; only integer-string is kept. -/
def stringTypeMapping : List (TStringKind × String) :=
  [(.date, "string"), (.time, "string"), (.dateTime, "string"),
   (.integerString, "integer-string")]

/-- Modelled from the spec: the type builder (TypeBuilder.ts, not under src/)
applies the language's `stringTypeMapping` while building the IR, so a
transformed-string kind mapped to "string" reaches the renderer as the plain
string primitive; kinds kept by the mapping stay transformed. -/
def applyStringTypeMapping (t : Typ) : Typ :=
  match t with
  | .transformedT k =>
    match stringTypeMapping.lookup k with
    | some "string" => .stringT
    | _ => .transformedT k
  | t' => t'

/-- The external Unicode facts the identifier classifiers consult: the
general category of a UTF-16 unit (`unicode.getCategory`) and NFKC
normalization of the one-unit string (`String.fromCharCode(u).normalize`),
as a unit sequence. -/
structure UnicodeEnv where
  category : Nat → String
  nfkc : Nat → List Nat

/-- The general categories that may start an identifier. -/
def startCategories : List String := ["Lu", "Ll", "Lt", "Lm", "Lo", "Nl"]

/-- The additional general categories that may continue an identifier. -/
def partCategories : List String := ["Mn", "Mc", "Nd", "Pc"]

/-- `isNormalizedStartCharacter`: an underscore (0x5f) or a unit whose
general category is one of the six start categories. -/
def isNormalizedStartCharacter (env : UnicodeEnv) (u : Nat) : Bool :=
  u == 0x5f || startCategories.contains (env.category u)

/-- `isStartCharacter`: NFKC-normalize the unit; the first normalized unit
must pass the normalized-start test and every later one the normalized-part
test (which itself re-enters `isStartCharacter`, hence the fuel). -/
def isStartCharacter (env : UnicodeEnv) : Nat → Nat → Bool
  | 0, _ => false
  | fuel + 1, u =>
    match env.nfkc u with
    | [] => false
    | v :: rest =>
      isNormalizedStartCharacter env v &&
        rest.all (fun w =>
          isStartCharacter env fuel w || partCategories.contains (env.category w))

/-- `isNormalizedPartCharacter`: a start character (the normalizing test) or
a unit whose category is one of the four continuation categories. -/
def isNormalizedPartCharacter (env : UnicodeEnv) (fuel : Nat) (u : Nat) : Bool :=
  isStartCharacter env fuel u || partCategories.contains (env.category u)

/-- `isPartCharacter`: every unit of the NFKC normalization passes the
normalized-part test. -/
def isPartCharacter (env : UnicodeEnv) (fuel : Nat) (u : Nat) : Bool :=
  (env.nfkc u).all (fun w => isNormalizedPartCharacter env fuel w)

/-- Restatement of the claim's start test on one normalized unit: underscore
or a general category among the six letter and letter-number categories. -/
def specStartTest (env : UnicodeEnv) (u : Nat) : Bool :=
  u == 0x5f || startCategories.contains (env.category u)

/-- Restatement of the claim's continuation test on one normalized unit: the
start test, or additionally a category among the four mark, digit and
connector categories. -/
def specContinueTest (env : UnicodeEnv) (u : Nat) : Bool :=
  specStartTest env u || partCategories.contains (env.category u)

/-- Restatement of the claim's start-position acceptance: the (possibly
multi-unit) NFKC normalization is nonempty, its first unit passes the start
test, every later unit passes the continuation test. -/
def specIsStart (env : UnicodeEnv) (u : Nat) : Bool :=
  match env.nfkc u with
  | [] => false
  | v :: rest => specStartTest env v && rest.all (specContinueTest env)

/-- Restatement of the claim's continuation-position acceptance: every unit
of the NFKC normalization passes the continuation test. -/
def specIsPart (env : UnicodeEnv) (u : Nat) : Bool :=
  (env.nfkc u).all (specContinueTest env)

/-- Whether the first list is an initial segment of the second. -/
def leadsWith : List Char → List Char → Bool
  | [], _ => true
  | _ :: _, [] => false
  | a :: n, b :: h => a == b && leadsWith n h

/-- Whether the first list occurs contiguously inside the second. -/
def containsSub (n : List Char) : List Char → Bool
  | [] => n.isEmpty
  | b :: h => leadsWith n (b :: h) || containsSub n h

/-- Whether the needle occurs as a substring of the haystack. -/
def strContains (hay needle : String) : Bool :=
  containsSub needle.data hay.data

/-- Adding a symbol to a symbol set makes it a member. -/
theorem contains_addOnceStr (a : String) (l : List String) :
    (addOnceStr a l).contains a = true := by
  unfold addOnceStr
  cases h : l.contains a with
  | true => simpa [h] using h
  | false => simp [h]

/-- Adding a type identity to the declared set makes it a member. -/
theorem contains_addOnceNat (a : Nat) (l : List Nat) :
    (addOnceNat a l).contains a = true := by
  unfold addOnceNat
  cases h : l.contains a with
  | true => simpa [h] using h
  | false => simp [h]

/-- After `withImport module name`, the registry holds the symbol for the
module. -/
theorem importHas_withImport (st : RState) (m n : String) :
    importHas (withImport m n st) m n = true := by
  simp only [importHas, withImport]
  generalize st.imports = l
  induction l with
  | nil => simp [insertImport, List.lookup]
  | cons p rest ih =>
    obtain ⟨k, ns⟩ := p
    by_cases hk : k = m
    · subst hk
      have hm : n ∈ addOnceStr n ns := by
        unfold addOnceStr
        cases h : ns.contains n with
        | true => simp_all
        | false => simp
      simp [insertImport, List.lookup, hm]
    · have hk1 : (k == m) = false := beq_eq_false_iff_ne.mpr hk
      have hk2 : (m == k) = false := beq_eq_false_iff_ne.mpr (Ne.symm hk)
      simpa [insertImport, List.lookup, hk1, hk2] using ih

/-- The combinator bodies are pairwise distinct. -/
theorem codesInjective (a b : DeserializerFunction)
    (h : deserializerFunctionCodes a = deserializerFunctionCodes b) : a = b := by
  cases a <;> cases b <;> first | rfl | (exact absurd h (by decide))

/-- No combinator body is the blank separator line. -/
theorem codesNonempty (a : DeserializerFunction) : deserializerFunctionCodes a ≠ "" := by
  cases a <;> decide

/-- Boolean `all` only depends on the predicate's values on the list. -/
theorem allEqOfMemEq (p q : Nat → Bool) (l : List Nat) (h : ∀ x ∈ l, p x = q x) :
    l.all p = l.all q := by
  induction l with
  | nil => rfl
  | cons a t ih =>
    simp only [List.all_cons, h a (List.mem_cons_self a t),
      ih fun x hx => h x (List.mem_cons_of_mem a hx)]

/-- A normalization-fixed unit is a start character exactly when it passes
the claim's one-unit start test. -/
theorem isStartCharacter_fixed (env : UnicodeEnv) (v : Nat) (hv : env.nfkc v = [v])
    (fuel : Nat) : isStartCharacter env (fuel + 1) v = specStartTest env v := by
  simp [isStartCharacter, hv, specStartTest, isNormalizedStartCharacter]

/-- C9: the Python target's string-type mapping sends date, time and
date-time all to the plain "string" primitive and keeps only integer-string,
so under the language's own configuration a date-time node reaches rendering
and synthesis as an ordinary string: it renders as `str` and deserializes
via `from_str`, never taking the datetime-import branch or the date-time
combinator. -/
theorem stringMappingTheorem :
    stringTypeMapping.lookup TStringKind.date = some "string" ∧
    stringTypeMapping.lookup TStringKind.time = some "string" ∧
    stringTypeMapping.lookup TStringKind.dateTime = some "string" ∧
    stringTypeMapping.lookup TStringKind.integerString = some "integer-string" ∧
    applyStringTypeMapping (.transformedT .dateTime) = Typ.stringT ∧
    (∀ fuel st, pythonType (fuel + 1) (applyStringTypeMapping (.transformedT .dateTime)) st
      = .ok ("str", st)) ∧
    (∀ fuel st, deserializerFn (fuel + 1) (applyStringTypeMapping (.transformedT .dateTime)) st
      = .ok (singleWord "from_str", { st with used := addOnceDF .str st.used })) :=
  ⟨rfl, rfl, rfl, rfl, rfl, fun _ _ => rfl, fun _ _ => rfl⟩

/-- C10: the deserializer of the `any` primitive is the identity expression
`lambda x: x`: it contains no assertion, leaves the renderer state (and so
the used-combinator set) unchanged, and a graph whose only primitive is
`any` contributes no support code. -/
theorem anyDeserializerTheorem :
    (∀ fuel st, deserializerFn (fuel + 1) Typ.anyT st = .ok (⟨"lambda x: x", true⟩, st)) ∧
    strContains "lambda x: x" "assert" = false ∧
    (emitDeclarations 5 [.define (.classD 0 "Thing" [⟨"p", "p", Typ.anyT⟩])] initRState).map
        (fun p => (emitSupportCodeLines p.2, p.2.used))
      = .ok ([], []) :=
  ⟨fun _ _ => rfl, rfl, rfl⟩

set_option maxRecDepth 16384 in
/-- C7: the date-time combinator body parses exactly the one fixed strptime
pattern "%Y-%m-%dT%H:%M:%S.%fZ" and, unlike every other combinator body,
contains no assertion; every other body asserts and never calls the pattern
parser. -/
theorem dateTimeCombinatorTheorem :
    strContains (deserializerFunctionCodes .dateTime)
        "datetime.strptime(x, \"%Y-%m-%dT%H:%M:%S.%fZ\")" = true ∧
    strContains (deserializerFunctionCodes .dateTime) "assert" = false ∧
    ∀ df : DeserializerFunction, df ≠ .dateTime →
      strContains (deserializerFunctionCodes df) "assert" = true ∧
      strContains (deserializerFunctionCodes df) "strptime" = false := by
  refine ⟨rfl, rfl, ?_⟩
  intro df h
  cases df <;> first | exact ⟨rfl, rfl⟩ | exact absurd rfl h

/-- Witness for C7, at the union combinator. -/
theorem dateTimeCombinatorWitness :
    strContains (deserializerFunctionCodes .union) "assert" = true ∧
    strContains (deserializerFunctionCodes .union) "strptime" = false :=
  dateTimeCombinatorTheorem.2.2 DeserializerFunction.union (by decide)

/-- C1 counterexample: for the union discovered as [string, bool] the
annotation lists the members in the stable sorted order (bool before str)
while the deserializer tries them in the stored discovery order (from_str
before from_bool), so the two orders are not element-for-element equal. -/
theorem unionOrderCounterexample :
    pythonType 3 (.unionT [.stringT, .boolT]) initRState
      = .ok ("Union[bool, str]", withImport "typing" "Union" initRState) ∧
    deserializerFn 3 (.unionT [.stringT, .boolT]) initRState
      = .ok (⟨"lambda x: from_union([from_str, from_bool], x)", true⟩,
          ⟨[], [], [.str, .bool, .union]⟩) ∧
    sortMembers [.stringT, .boolT] = [Typ.boolT, Typ.stringT] :=
  ⟨rfl, rfl, rfl⟩

/-- C1 amended: for every union, the annotation renders the members in the
stable (kind, name) sort order of the member set — the member traversal runs
over `sortMembers ms` — while the deserializer tries the members'
deserializers in the union's stored (discovery) order, traversing `ms`
itself; consequently the annotation is invariant under permuting the stored
members while the deserializer expression follows the stored order, and the
two orders agree only when the stored order is already sorted. -/
theorem unionOrderAmended :
    (∀ fuel (ms : List Typ) (st : RState) ss st1,
      nullableFromUnion ms = Option.none →
      mapAccumExcept (fun m st' => pythonType fuel m st') (sortMembers ms) st = .ok (ss, st1) →
      pythonType (fuel + 1) (.unionT ms) st
        = .ok ("Union[" ++ String.intercalate ", " ss ++ "]",
            withImport "typing" "Union" st1)) ∧
    (∀ fuel (ms : List Typ) (st : RState) ds st1,
      mapAccumExcept (fun m st' =>
          match deserializerFn fuel m st' with
          | .error e => .error e
          | .ok (d, st'') => .ok (d.source, st'')) ms st = .ok (ds, st1) →
      deserializerFn (fuel + 1) (.unionT ms) st
        = .ok (multiWord "" ["lambda x: ", "from_union", "([",
              String.intercalate ", " ds, "], x)"],
            { st1 with used := addOnceDF .union st1.used })) ∧
    (∀ st : RState,
      pythonType 3 (.unionT [.stringT, .boolT]) st
        = .ok ("Union[bool, str]", withImport "typing" "Union" st) ∧
      pythonType 3 (.unionT [.boolT, .stringT]) st
        = .ok ("Union[bool, str]", withImport "typing" "Union" st) ∧
      (deserializerFn 3 (.unionT [.stringT, .boolT]) st).map (fun p => p.1.source)
        = .ok "lambda x: from_union([from_str, from_bool], x)" ∧
      (deserializerFn 3 (.unionT [.boolT, .stringT]) st).map (fun p => p.1.source)
        = .ok "lambda x: from_union([from_bool, from_str], x)") := by
  refine ⟨?_, ?_, fun _ => ⟨rfl, rfl, rfl, rfl⟩⟩
  · intro fuel ms st ss st1 hN h
    rw [pythonType.eq_def]
    simp only [hN, h]
  · intro fuel ms st ds st1 h
    rw [deserializerFn.eq_def]
    simp only [h]
    rfl

/-- Witness for C1 amended, at the union stored as [string, bool]. -/
theorem unionOrderAmendedWitness :
    pythonType 3 (.unionT [.stringT, .boolT]) initRState
      = .ok ("Union[bool, str]", withImport "typing" "Union" initRState) ∧
    deserializerFn 3 (.unionT [.stringT, .boolT]) initRState
      = .ok (⟨"lambda x: from_union([from_str, from_bool], x)", true⟩,
          ⟨[], [], [.str, .bool, .union]⟩) := by
  have h1 := unionOrderAmended.1 2 [.stringT, .boolT] initRState ["bool", "str"]
      initRState rfl rfl
  have h2 := unionOrderAmended.2.1 2 [.stringT, .boolT] initRState
      ["from_str", "from_bool"] ⟨[], [], [.str, .bool]⟩ rfl
  exact ⟨h1, h2⟩

/-- C2 counterexample: the union with member set exactly [null, int] is
deserialized through the general union combinator `from_union` (which is
also added to the used-combinator set), not by a dedicated
accept-null-else-T expression, even though its annotation is
`Optional[int]`. -/
theorem nullableUnionCounterexample :
    deserializerFn 3 (.unionT [.nullT, .intT]) initRState
      = .ok (⟨"lambda x: from_union([from_none, from_int], x)", true⟩,
          ⟨[], [], [.none, .int, .union]⟩) ∧
    pythonType 3 (.unionT [.nullT, .intT]) initRState
      = .ok ("Optional[int]", withImport "typing" "Optional" initRState) :=
  ⟨rfl, rfl⟩

/-- Adding a combinator kind to the used set makes it a member. -/
theorem contains_addOnceDF (a : DeserializerFunction) (l : List DeserializerFunction) :
    (addOnceDF a l).contains a = true := by
  unfold addOnceDF
  cases h : l.contains a with
  | true => simpa [h] using h
  | false => simp [h]

/-- C2 amended: a union of exactly [null, T] renders as `Optional[T]` in
the annotation only; its deserializer is built with the general union
combinator, as `lambda x: from_union([from_none, <T deserializer>], x)`,
registering the union combinator kind. -/
theorem nullableUnionAmended :
    ∀ fuel (tt : Typ) (st : RState) (d : MWord) (st' : RState),
      (deserializerFn (fuel + 1) tt { st with used := addOnceDF .none st.used }
          = .ok (d, st') →
        deserializerFn (fuel + 2) (.unionT [.nullT, tt]) st
          = .ok (⟨"lambda x: from_union([from_none, " ++ d.source ++ "], x)", true⟩,
              { st' with used := addOnceDF .union st'.used }) ∧
        (addOnceDF .union st'.used).contains .union = true) ∧
      (isNullT tt = false →
        ∀ s st2, pythonType (fuel + 1) tt (withImport "typing" "Optional" st) = .ok (s, st2) →
          pythonType (fuel + 2) (.unionT [.nullT, tt]) st = .ok ("Optional[" ++ s ++ "]", st2)) := by
  intro fuel tt st d st'
  constructor
  · intro h
    refine ⟨?_, contains_addOnceDF .union st'.used⟩
    rw [show fuel + 2 = (fuel + 1) + 1 from rfl]
    rw [deserializerFn.eq_def]
    simp only [mapAccumExcept]
    rw [show deserializerFn (fuel + 1) Typ.nullT st
        = .ok (singleWord "from_none", { st with used := addOnceDF .none st.used }) from rfl]
    simp only [singleWord, h]
    simp only [fromDF, dfName, multiWord]
    simp only [String.intercalate, String.intercalate.go, String.append_empty]
    rfl
  · intro hN s st2 h2
    rw [show fuel + 2 = (fuel + 1) + 1 from rfl]
    have hu : nullableFromUnion [Typ.nullT, tt] = some tt := by
      simp [nullableFromUnion, hN, show isNullT Typ.nullT = true from rfl]
    rw [pythonType.eq_def]
    simp only [hu, h2]

/-- Witness for C2 amended, at T = int from the empty state. -/
theorem nullableUnionAmendedWitness :
    deserializerFn 2 (.unionT [.nullT, .intT]) initRState
      = .ok (⟨"lambda x: from_union([from_none, from_int], x)", true⟩,
          ⟨[], [], [.none, .int, .union]⟩) ∧
    pythonType 2 (.unionT [.nullT, .intT]) initRState
      = .ok ("Optional[int]", withImport "typing" "Optional" initRState) := by
  have h := nullableUnionAmended 0 .intT initRState (singleWord "from_int")
      ⟨[], [], [.none, .int]⟩
  exact ⟨(h.1 rfl).1, h.2 rfl "int" (withImport "typing" "Optional" initRState) rfl⟩

/-- C3 counterexample: a request to independently declare a union type does
not abort generation: `emitDeclaration` silently skips it, returning no
output, no diagnostic and an unchanged state. -/
theorem declareUnionCounterexample :
    emitDeclaration 5 (.define (.otherD (.unionT [.intT, .stringT]))) initRState
      = .ok ([], initRState) := rfl

/-- C3 amended: a transformed-string kind other than date-time aborts both
rendering and synthesis with a diagnostic naming the kind, and a define of
such a kind aborts naming the kind; but a request to independently declare
a union type is silently skipped, emitting nothing. -/
theorem unsupportedKindAmended :
    ∀ (k : TStringKind) fuel (st : RState), k ≠ .dateTime →
      pythonType (fuel + 1) (.transformedT k) st
        = .error ("Transformed type " ++ tstringKindName k ++ " not supported") ∧
      deserializerFn (fuel + 1) (.transformedT k) st
        = .error ("Transformed type " ++ tstringKindName k ++ " not supported") ∧
      (∀ ms, emitDeclaration fuel (.define (.otherD (.unionT ms))) st = .ok ([], st)) ∧
      emitDeclaration fuel (.define (.otherD (.transformedT k))) st
        = .error ("Cannot declare type " ++ tstringKindName k) := by
  intro k fuel st h
  cases k <;> first
    | exact ⟨rfl, rfl, fun _ => rfl, rfl⟩
    | exact absurd rfl h

/-- Witness for C3 amended, at the uuid transformed-string kind. -/
theorem unsupportedKindWitness :
    pythonType 1 (.transformedT .uuid) initRState
      = .error "Transformed type uuid not supported" ∧
    deserializerFn 1 (.transformedT .uuid) initRState
      = .error "Transformed type uuid not supported" ∧
    emitDeclaration 0 (.define (.otherD (.unionT []))) initRState = .ok ([], initRState) ∧
    emitDeclaration 0 (.define (.otherD (.transformedT .uuid))) initRState
      = .error "Cannot declare type uuid" := by
  have h := unsupportedKindAmended .uuid 0 initRState (by decide)
  exact ⟨h.1, h.2.1, h.2.2.1 [], h.2.2.2⟩

/-- C4: a class or enum reference is the bare name exactly when the type's
identity is in the declared set and the quoted name otherwise; `emitClass`
adds the identity only after the whole body is emitted, so a
self-referential class renders its in-body self-reference quoted, and once
the body has closed every reference to it is bare. -/
theorem declarationStateTheorem :
    (∀ (st : RState) id name,
      (st.declared.contains id = true → namedType id name st = name) ∧
      (st.declared.contains id = false →
        namedType id name st = "\x27" ++ name ++ "\x27")) ∧
    (∀ fuel id (st : RState),
      st.declared.contains id = false →
      emitClass (fuel + 1) id "Node" [⟨"p", "p", .classT id "Node"⟩] st
        = .ok (["class Node:",
                "    p: \x27Node\x27",
                "",
                "    def __init__(self, obj):",
                "        assert isinstance(obj, dict)",
                "        self.p = Node(obj[\"p\"])"],
            { st with declared := addOnceNat id st.declared }) ∧
      (addOnceNat id st.declared).contains id = true ∧
      namedType id "Node" { st with declared := addOnceNat id st.declared } = "Node") := by
  constructor
  · intro st id name
    refine ⟨fun h => ?_, fun h => ?_⟩ <;> (simp at h; simp [namedType, h])
  · intro fuel id st h
    have hmem : id ∈ addOnceNat id st.declared := by
      unfold addOnceNat
      cases hc : st.declared.contains id with
      | true => simp_all
      | false => simp
    refine ⟨?_, ?_, ?_⟩
    · simp only [emitClass, emitClassMembersLines, mapAccumExcept, pythonType, deserializer,
        deserializerFn, namedType, parenIfNeeded, singleWord, indentLines, h]
      rfl
    · exact contains_addOnceNat id st.declared
    · simp [namedType, hmem]

/-- Witness for C4 at a fresh state. -/
theorem declarationStateWitness :
    emitClass 1 0 "Node" [⟨"p", "p", .classT 0 "Node"⟩] initRState
      = .ok (["class Node:",
              "    p: \x27Node\x27",
              "",
              "    def __init__(self, obj):",
              "        assert isinstance(obj, dict)",
              "        self.p = Node(obj[\"p\"])"],
          ⟨[], [0], []⟩) ∧
    namedType 0 "Node" ⟨[], [0], []⟩ = "Node" := by
  have h := declarationStateTheorem.2 0 0 initRState rfl
  exact ⟨h.1, h.2.2⟩

/-- C6: the primitive and collection annotations: any renders as `Any` with
a typing import, null as `None`, bool as `bool`, int as `int`, double as
`float`, string as `str`; an array renders as `List[...]` around its items
and a map as `Dict[str, ...]` around its values (keys always `str`), each
registering its typing import. -/
theorem primitiveCollectionTheorem :
    (∀ fuel (st : RState),
      pythonType (fuel + 1) Typ.anyT st = .ok ("Any", withImport "typing" "Any" st) ∧
      pythonType (fuel + 1) Typ.nullT st = .ok ("None", st) ∧
      pythonType (fuel + 1) Typ.boolT st = .ok ("bool", st) ∧
      pythonType (fuel + 1) Typ.intT st = .ok ("int", st) ∧
      pythonType (fuel + 1) Typ.doubleT st = .ok ("float", st) ∧
      pythonType (fuel + 1) Typ.stringT st = .ok ("str", st)) ∧
    (∀ fuel (st : RState) items s st2,
      pythonType fuel items (withImport "typing" "List" st) = .ok (s, st2) →
      pythonType (fuel + 1) (.arrayT items) st = .ok ("List[" ++ s ++ "]", st2)) ∧
    (∀ fuel (st : RState) values s st2,
      pythonType fuel values (withImport "typing" "Dict" st) = .ok (s, st2) →
      pythonType (fuel + 1) (.mapT values) st = .ok ("Dict[str, " ++ s ++ "]", st2)) ∧
    (∀ (st : RState) module name, importHas (withImport module name st) module name = true) := by
  refine ⟨fun fuel st => ⟨rfl, rfl, rfl, rfl, rfl, rfl⟩, ?_, ?_,
    fun st m n => importHas_withImport st m n⟩
  · intro fuel st items s st2 h
    rw [pythonType.eq_def]
    simp only [h]
  · intro fuel st values s st2 h
    rw [pythonType.eq_def]
    simp only [h]

/-- Witness for C6 at array-of-bool and map-of-int from the empty state. -/
theorem primitiveCollectionWitness :
    pythonType 2 (.arrayT .boolT) initRState
      = .ok ("List[bool]", withImport "typing" "List" initRState) ∧
    pythonType 2 (.mapT .intT) initRState
      = .ok ("Dict[str, int]", withImport "typing" "Dict" initRState) ∧
    importHas (withImport "typing" "Any" initRState) "typing" "Any" = true :=
  ⟨primitiveCollectionTheorem.2.1 1 initRState .boolT "bool"
      (withImport "typing" "List" initRState) rfl,
   primitiveCollectionTheorem.2.2.1 1 initRState .intT "int"
      (withImport "typing" "Dict" initRState) rfl,
   primitiveCollectionTheorem.2.2.2 initRState "typing" "Any"⟩

/-- The support segment holds exactly one body per used combinator kind. -/
theorem countSupportLines (used : List DeserializerFunction) (hnd : used.Nodup)
    (df : DeserializerFunction) :
    ((used.map (fun d => [deserializerFunctionCodes d, ""])).flatten).count
        (deserializerFunctionCodes df) = if df ∈ used then 1 else 0 := by
  induction used with
  | nil => simp
  | cons d rest ih =>
    rcases List.nodup_cons.mp hnd with ⟨hd, hrest⟩
    have ihr := ih hrest
    by_cases hdf : df = d
    · subst hdf
      have hz : df ∉ rest := hd
      simp [List.count_cons, ihr, hz, (codesNonempty df).symm]
    · have hne : deserializerFunctionCodes d ≠ deserializerFunctionCodes df :=
        fun hc => hdf (codesInjective df d hc.symm)
      simp [List.count_cons, ihr, hne, (codesNonempty df).symm, hdf]

set_option maxRecDepth 16384 in
/-- C5 counterexample: two one-class graphs referencing the combinator set
consisting of int and str in opposite orders yield the same used set but
different support-code segments: the emission order is first-reference
order, not one single fixed order. -/
theorem supportOrderCounterexample :
    (emitDeclarations 5 [.define (.classD 0 "A" [⟨"p", "p", .intT⟩, ⟨"q", "q", .stringT⟩])]
        initRState).map (fun p => p.2.used) = .ok [.int, .str] ∧
    (emitDeclarations 5 [.define (.classD 0 "B" [⟨"p", "p", .stringT⟩, ⟨"q", "q", .intT⟩])]
        initRState).map (fun p => p.2.used) = .ok [.str, .int] ∧
    ([DeserializerFunction.int, .str] : List DeserializerFunction).Perm [.str, .int] ∧
    emitSupportCodeLines ⟨[], [], [.int, .str]⟩ ≠ emitSupportCodeLines ⟨[], [], [.str, .int]⟩ := by
  refine ⟨rfl, rfl, ?_, ?_⟩
  · decide
  · decide

/-- C5 amended: a combinator kind already present is never re-added and a
new kind is appended once, so each referenced kind occurs exactly once in
the used set; the support segment contains exactly one body per used kind,
in first-reference (insertion) order — deterministic for a given graph but
not one globally fixed order — and it is emitted after the imports and
before all type declarations. -/
theorem supportCodeAmended :
    (∀ df (st : RState),
      (st.used.contains df = true → (fromDF df st).2 = st) ∧
      (st.used.contains df = false →
        (fromDF df st).2 = { st with used := st.used ++ [df] })) ∧
    (∀ used : List DeserializerFunction, used.Nodup →
      ∀ df, (emitSupportCodeLines ⟨[], [], used⟩).count (deserializerFunctionCodes df)
        = if df ∈ used then 1 else 0) ∧
    (∀ fuel decls (st : RState) dl st1, emitDeclarations fuel decls st = .ok (dl, st1) →
      emitSourceStructure fuel decls st
        = .ok (defaultLeadingComments ++ [""] ++ importLines st1 ++ [""] ++
            emitSupportCodeLines st1 ++ [""] ++ dl)) := by
  refine ⟨?_, ?_, ?_⟩
  · intro df st
    constructor <;> intro h <;> (simp at h; simp [fromDF, addOnceDF, h])
  · intro used hnd df
    exact countSupportLines used hnd df
  · intro fuel decls st dl st1 h
    simp only [emitSourceStructure, h]

/-- Witness for C5 amended at concrete registry states. -/
theorem supportCodeAmendedWitness :
    (fromDF .int ⟨[], [], [.int]⟩).2 = ⟨[], [], [.int]⟩ ∧
    (fromDF .str ⟨[], [], [.int]⟩).2 = ⟨[], [], [.int, .str]⟩ ∧
    (emitSupportCodeLines ⟨[], [], [.int]⟩).count (deserializerFunctionCodes .int) = 1 ∧
    emitSourceStructure 1 [] initRState
      = .ok (defaultLeadingComments ++ [""] ++ importLines initRState ++ [""] ++
          emitSupportCodeLines initRState ++ [""] ++ []) := by
  have h1 := (supportCodeAmended.1 .int ⟨[], [], [.int]⟩).1 rfl
  have h2 := (supportCodeAmended.1 .str ⟨[], [], [.int]⟩).2 rfl
  have h3 := supportCodeAmended.2.1 [.int] (by decide) .int
  have h4 := supportCodeAmended.2.2 1 [] initRState [] initRState rfl
  exact ⟨h1, h2, by simpa using h3, h4⟩

/-- C8: assuming NFKC's closure property — every unit of a normalized
expansion is itself normalization-fixed — the classifiers accept a
character at start position exactly when its normalization is nonempty, its
first normalized unit is an underscore or has general category among Lu,
Ll, Lt, Lm, Lo, Nl, and every later unit passes the continuation test; and
at a continuation position exactly when every normalized unit passes the
start test or additionally has category among Mn, Mc, Nd, Pc. -/
theorem identifierCharTheorem :
    ∀ env : UnicodeEnv,
      (∀ u, ∀ v ∈ env.nfkc u, env.nfkc v = [v]) →
      ∀ u, isStartCharacter env 2 u = specIsStart env u ∧
        isPartCharacter env 1 u = specIsPart env u := by
  intro env hcl u
  constructor
  · have e1 : isStartCharacter env 2 u
        = match env.nfkc u with
          | [] => false
          | v :: rest =>
            isNormalizedStartCharacter env v &&
              rest.all (fun w =>
                isStartCharacter env 1 w || partCategories.contains (env.category w)) := rfl
    rw [e1]
    unfold specIsStart
    cases hnf : env.nfkc u with
    | nil => rfl
    | cons v rest =>
      have hall : rest.all (fun w =>
            isStartCharacter env 1 w || partCategories.contains (env.category w))
          = rest.all (specContinueTest env) := by
        refine allEqOfMemEq _ _ rest fun w hw => ?_
        rw [(isStartCharacter_fixed env w
          (hcl u w (by rw [hnf]; exact List.mem_cons_of_mem v hw)) 0 :
            isStartCharacter env 1 w = specStartTest env w)]
        rfl
      show (isNormalizedStartCharacter env v &&
          rest.all (fun w =>
            isStartCharacter env 1 w || partCategories.contains (env.category w)))
        = (specStartTest env v && rest.all (specContinueTest env))
      rw [hall]
      rfl
  · have e2 : isPartCharacter env 1 u
        = (env.nfkc u).all (fun w =>
            isStartCharacter env 1 w || partCategories.contains (env.category w)) := rfl
    rw [e2]
    unfold specIsPart
    refine allEqOfMemEq _ _ (env.nfkc u) fun w hw => ?_
    rw [(isStartCharacter_fixed env w (hcl u w hw) 0 :
      isStartCharacter env 1 w = specStartTest env w)]
    rfl

/-- Witness for C8 at an identity-normalizing environment. -/
theorem identifierCharWitness :
    isStartCharacter ⟨fun _ => "Lu", fun u => [u]⟩ 2 97
      = specIsStart ⟨fun _ => "Lu", fun u => [u]⟩ 97 ∧
    isPartCharacter ⟨fun _ => "Lu", fun u => [u]⟩ 1 97
      = specIsPart ⟨fun _ => "Lu", fun u => [u]⟩ 97 :=
  identifierCharTheorem ⟨fun _ => "Lu", fun u => [u]⟩
    (fun u v hv => by
      simp only [List.mem_singleton] at hv
      subst hv
      rfl) 97

end PythonBackend
